import Mathlib

/-!
Verification development for the circuit-services layer of the
qiskit-ibmq-provider repository: a shallow embedding in Lean 4 of

* the argument validation and local opaque-instantiation protocol of
  `CircuitDefinition.instantiate` (circuits/circuitdefinition.py) and
  `IBMQCircuit.compile` (circuits/ibmqcircuit.py),
* the pragma encoding of `RemoteGate.qasm` (circuits/remotegate.py),
* the lazy service-instance registry of `IBMQService`
  (ibmqservice.py) together with `CircuitService.get_instance`
  (circuits/circuitservice.py), and
* the opaque-declaration deduplication pass of `CircuitService.run`
  (circuits/circuitservice.py).

Python strings are modelled as `String` where the code only builds,
compares or joins them, and as `List Char` (`Str`) where the code
inspects their characters (the pragma protocol and the deduplication
pass).  Python dicts that preserve insertion order are modelled as
association lists.  External collaborators (the HTTP transport, the
local circuit library, the reference-circuit constructor, the
eval-based type check) enter as explicit parameters, so every
operation of the embedding is a pure total function.  A Python
`raise`/`return` outcome is an `Except` value.
-/

set_option maxHeartbeats 1000000

/-- Decidable equality for `Except`, component-wise. -/
instance {ε α : Type} [DecidableEq ε] [DecidableEq α] : DecidableEq (Except ε α) := fun x y =>
  match x, y with
  | .ok a, .ok b =>
    if h : a = b then isTrue (by rw [h]) else isFalse (fun he => h (by injection he))
  | .error a, .error b =>
    if h : a = b then isTrue (by rw [h]) else isFalse (fun he => h (by injection he))
  | .ok _, .error _ => isFalse (fun he => by injection he)
  | .error _, .ok _ => isFalse (fun he => by injection he)

/-- Characters of a Python string (used where the code inspects characters). -/
abbrev Str := List Char

namespace IBMQ

/-! ### circuits/circuitdefinition.py: CircuitParameterDefinition -/

/-- One parameter schema of a circuit template (`CircuitParameterDefinition`
in circuitdefinition.py): name, description, type tag, required flag.
`from_dict` is the identity on this record, so raw server argument records
are modelled directly as values of this structure. -/
structure CircuitParameterDefinition where
  name : String
  description : String
  type : String
  required : Bool
  deriving DecidableEq

/-- A circuit template definition (`CircuitDefinition` in
circuitdefinition.py).  The provider and api-client fields are transport
handles with no bearing on the embedded logic and are omitted. -/
structure CircuitDefinition where
  name : String
  description : String
  parameters : List CircuitParameterDefinition
  families : List String
  deriving DecidableEq

/-- Errors raised by `CircuitDefinition.instantiate`
(`IBMQCircuitBadArguments` and `CircuitReferenceNotFound`). -/
inductive InstantiateError where
  | badArguments (msg : String)
  | referenceNotFound (msg : String)
  deriving DecidableEq

/-- The opaque placeholder built by `instantiate` (a `RemoteGate` with
`_is_remote = True` and `_remote_params` the rendered kwargs).  The
embedding keeps exactly the data the gate carries. -/
structure RemoteGateInstr where
  name : String
  num_qubits : Nat
  remote_params : List String
  deriving DecidableEq

/-- Python's `c.lower()` character data for ASCII names, used by the
case-insensitive circuit-library search of `instantiate`. -/
def lowerChars (s : String) : List Char := s.toList.map Char.toLower

/-- Names of the template's parameters (`param_names` in `instantiate`). -/
def paramNames (cd : CircuitDefinition) : List String := cd.parameters.map (·.name)

/-- The extra (non-schema) keyword argument names, in call order
(`extra_params` in `instantiate`). -/
def extraParams (cd : CircuitDefinition) (ks : List String) : List String :=
  ks.filter (fun u => !(decide (u ∈ paramNames cd)))

/-- The missing required parameter names, in schema order
(`missing_params` in `instantiate`). -/
def missingParams (cd : CircuitDefinition) (ks : List String) : List String :=
  (cd.parameters.filter (fun p => p.required && !(decide (p.name ∈ ks)))).map (·.name)

/-- Embedding of `CircuitDefinition.instantiate` (circuitdefinition.py).

`kwargs` is the keyword-argument list as (name, rendered value) pairs in
call order.  `circLib` is the list of class names of the external local
circuit library (`inspect.getmembers(circuit_library, inspect.isclass)`),
an external collaborator.  `refCtor` is the outcome of the external call
`circ_class(**kwargs)`: `.error msg` models a raised `CircuitError`
(re-raised as bad arguments), `.ok nq` models a reference circuit with
`nq` qubits.  The returned value keeps the data of the opaque
`RemoteGate` appended to the output circuit. -/
def instantiate (cd : CircuitDefinition) (circLib : List String)
    (refCtor : Except String Nat) (kwargs : List (String × String)) :
    Except InstantiateError RemoteGateInstr :=
  let ks := kwargs.map Prod.fst
  let extra := extraParams cd ks
  if extra ≠ [] then
    .error (.badArguments (String.intercalate "," extra ++
      " are not valid parameters for " ++ cd.name))
  else
    let missing := missingParams cd ks
    if missing ≠ [] then
      .error (.badArguments ("Required parameters " ++
        String.intercalate "," missing ++ " are missing."))
    else
      match circLib.find? (fun n => lowerChars n == lowerChars cd.name) with
      | none => .error (.referenceNotFound ("Unable to find a reference " ++
          cd.name ++ " circuit in circuit library."))
      | some _ =>
        match refCtor with
        | .error cerr => .error (.badArguments cerr)
        | .ok nq =>
          .ok { name := cd.name
                num_qubits := nq
                remote_params := kwargs.map (fun kv => kv.1 ++ "=" ++ kv.2) }

/-! ### ibmqservice.py: the lazy service-instance registry, specialised to
CircuitService (circuits/circuitservice.py) -/

/-- A raw circuit record returned by the collaborator transport
(`list_circuits()` / `circuit_get(name)` items): the keyword arguments of
the `CircuitDefinition` constructor. -/
structure RawConfig where
  name : String
  description : String
  arguments : List CircuitParameterDefinition
  families : List String
  deriving DecidableEq

/-- A transport-level failure of the collaborator (`RequestsApiError`),
carried as its message. -/
abbrev TransportError := String

/-- The mutable state of an `IBMQService` registry: the insertion-ordered
`_instances` dict as an association list, and the `_initialized` flag.
The `__dict__` attribute mirror repeats `_instances` and is omitted. -/
structure Registry where
  instances : List (String × CircuitDefinition)
  initialized : Bool
  deriving DecidableEq

/-- Embedding of `CircuitService._to_service_instance`'s construction of the
domain instance: `CircuitDefinition(provider, api_client, **raw_data)`. -/
def toCircuitDefinition (raw : RawConfig) : CircuitDefinition :=
  { name := raw.name
    description := raw.description
    parameters := raw.arguments
    families := raw.families }

/-- Modelled from the spec: the deterministic name-sanitisation transform
`to_python_identifier` lives in utils/utils.py, which is not among the
repository files here; per the spec, non-identifier characters are
replaced and a leading digit is escaped. -/
def to_python_identifier (s : String) : String :=
  let t := s.toList.map (fun c => if c.isAlphanum || c == '_' then c else '_')
  match t with
  | [] => String.mk []
  | c :: _ => if c.isDigit then String.mk ('_' :: t) else String.mk t

/-- The `while inst_python_id in self._instances: inst_python_id += '_'`
loop of `IBMQService._to_unique_python_identifier`, written with an
explicit fuel argument; `appendUnderscoresAux_not_mem` in the theorems
below shows the fuel `d.length + 1` used by `to_unique_python_identifier`
never runs out, so the first branch is unreachable there. -/
def appendUnderscoresAux (d : List (String × CircuitDefinition)) :
    Nat → String → String
  | 0, s => s
  | fuel + 1, s =>
    if s ∈ d.map Prod.fst then appendUnderscoresAux d fuel (s ++ "_") else s

/-- Embedding of `IBMQService._to_unique_python_identifier`: sanitise the
instance name, then append `_` until the identifier is not yet a key of
the `_instances` dict `d`. -/
def to_unique_python_identifier (d : List (String × CircuitDefinition))
    (instance_id : String) : String :=
  appendUnderscoresAux d (d.length + 1) (to_python_identifier instance_id)

/-- Insertion into the `_instances` dict: overwrite in place if the key
exists, else append (Python dicts preserve insertion order). -/
def dictInsert (d : List (String × CircuitDefinition)) (k : String)
    (v : CircuitDefinition) : List (String × CircuitDefinition) :=
  if k ∈ d.map Prod.fst then d.map (fun kv => if kv.1 == k then (k, v) else kv)
  else d ++ [(k, v)]

/-- One iteration of the discovery loop of `IBMQService._discover_instances`:
an item that is not a dict is skipped with a warning; a well-formed record
is converted by `_to_service_instance` and stored under its fresh unique
identifier. -/
def discoverStep (acc : List (String × CircuitDefinition)) (item : Option RawConfig) :
    List (String × CircuitDefinition) :=
  match item with
  | none => acc
  | some raw => dictInsert acc (to_unique_python_identifier acc raw.name) (toCircuitDefinition raw)

/-- Embedding of `IBMQService._discover_instances`.  `listing` is the
outcome of the collaborator call `_list_instances()`: a transport error,
or the returned item list where `none` stands for an item that is not a
dict.  The returned number counts the listing calls performed (0 or 1).
A transport error is caught inside the method (only a warning is logged),
so the embedding returns normally in that case too: the cache was already
cleared, and `_initialized` is left `false`. -/
def discover_instances (listing : Except TransportError (List (Option RawConfig)))
    (r : Registry) : Registry × Nat :=
  if r.initialized then (r, 0)
  else
    match listing with
    | .error _ => ({ instances := [], initialized := false }, 1)
    | .ok items =>
      ({ instances := items.foldl discoverStep [], initialized := true }, 1)

/-- Embedding of `IBMQService.instances()`: trigger discovery, then return
`list(self._instances.values())`; the listing-call count is passed through. -/
def instancesOp (listing : Except TransportError (List (Option RawConfig)))
    (r : Registry) : List CircuitDefinition × Registry × Nat :=
  let p := discover_instances listing r
  (p.1.instances.map Prod.snd, p.1, p.2)

/-- Errors surfaced by `CircuitService.get_instance`: the service's own
`IBMQCircuitNotFound`, or the collaborator's raw transport error
propagated unwrapped. -/
inductive GetInstanceError where
  | notFound (msg : String)
  | transport (e : TransportError)
  deriving DecidableEq

/-- Embedding of `CircuitService.get_instance` (circuits/circuitservice.py).
On an initialized registry it scans the cached instances by domain name
and raises `IBMQCircuitNotFound` on a miss; on an uninitialized registry
it performs the raw single-name fetch `circuit_get(name)` (`fetch` is its
outcome) and propagates a transport failure unwrapped, adding the fetched
instance to the cache on success. -/
def get_instance (fetch : Except TransportError RawConfig) (r : Registry)
    (name : String) : Except GetInstanceError (CircuitDefinition × Registry) :=
  if r.initialized then
    match (r.instances.map Prod.snd).find? (fun c => c.name == name) with
    | some c => .ok (c, r)
    | none => .error (.notFound ("Circuit " ++ name ++ " is not available with this provider."))
  else
    match fetch with
    | .error e => .error (.transport e)
    | .ok raw =>
      let cid := to_unique_python_identifier r.instances raw.name
      let c := toCircuitDefinition raw
      .ok (c, { r with instances := dictInsert r.instances cid c })

/-! ### circuits/circuitservice.py: the deduplication pass of CircuitService.run -/

/-- Characters of the keyword tested by `line.startswith('opaque')`. -/
def opaqueTok : Str := "opaque".toList

/-- Characters of the remote-circuit pragma marker tested by
`init_qasm[index-1].startswith('// PRAGMA remote-circuit')`; the bare
marker is also the third line of every pragma block. -/
def pragmaTok : Str := "// PRAGMA remote-circuit".toList

/-- Characters of the version-header test `line.startswith('OPENQASM 2.0')`. -/
def openqasm20Tok : Str := "OPENQASM 2.0".toList

/-- A complete version-header line, as an input line of the pass. -/
def openqasm20Line : Str := "OPENQASM 2.0;".toList

/-- The replacement version-header line `'OPENQASM 2.5;'`. -/
def openqasm25Line : Str := "OPENQASM 2.5;".toList

/-- The version-marker substitution applied to every line first:
`if line.startswith('OPENQASM 2.0'): line = 'OPENQASM 2.5;'`. -/
def fixVersion (line : Str) : Str :=
  if openqasm20Tok.isPrefixOf line then openqasm25Line else line

/-- Accumulator loop of `pyWords`: split on whitespace runs, dropping
empty words, like Python's `str.split()` with no arguments. -/
def pyWordsAux : Str → Str → List Str
  | [], cur => if cur.isEmpty then [] else [cur.reverse]
  | c :: cs, cur =>
    if c.isWhitespace then
      if cur.isEmpty then pyWordsAux cs [] else cur.reverse :: pyWordsAux cs []
    else pyWordsAux cs (c :: cur)

/-- Python's `line.split()` (whitespace runs, no empty words). -/
def pyWords (line : Str) : List Str := pyWordsAux line []

/-- The gate name of a declaration line, `line.split()[1]`.  Python raises
`IndexError` when the line has fewer than two words; the embedding
totalises that unreachable-for-well-formed-input case with `[]`. -/
def token1 (line : Str) : Str := (pyWords line).getD 1 []

/-- The line looked at by `init_qasm[index-1]` for each index: for index 0
Python's negative indexing yields the *last* line of the same program, so
the lookback sequence is the program rotated right by one. -/
def prevList (prog : List Str) : List Str :=
  match prog with
  | [] => []
  | l :: ls => (l :: ls).getLastD [] :: (l :: ls).dropLast

/-- Whether a (line, previous line) pair is taken as an opaque declaration:
the (version-substituted) line starts with the opaque keyword and the
lookback line starts with the pragma marker. -/
def isDeclPair (lp : Str × Str) : Bool :=
  opaqueTok.isPrefixOf (fixVersion lp.1) && pragmaTok.isPrefixOf lp.2

/-- The per-program loop body of `CircuitService.run`, over (line, lookback)
pairs, with `seen` the running `opaque_gates` list: a declaration whose
gate name was already declared is dropped, every other line is emitted
(after the version substitution). -/
def dedupLines (seen : List Str) : List (Str × Str) → List Str
  | [] => []
  | lp :: rest =>
    if isDeclPair lp then
      if token1 (fixVersion lp.1) ∈ seen then dedupLines seen rest
      else fixVersion lp.1 :: dedupLines (token1 (fixVersion lp.1) :: seen) rest
    else fixVersion lp.1 :: dedupLines seen rest

/-- The deduplication pass on one program's line sequence (`final_qasm`
for one circuit of `CircuitService.run`), with a fresh `opaque_gates`
list. -/
def dedupProgram (prog : List Str) : List Str :=
  dedupLines [] (prog.zip (prevList prog))

/-- The assembly loop of `CircuitService.run` over all submitted programs
(`qasm_strs`): each program is deduplicated independently. -/
def assembleQasm : List (List Str) → List (List Str)
  | [] => []
  | p :: ps => dedupProgram p :: assembleQasm ps

/-- Specification-side reading of a pair: the declared gate name, when the
pair is taken as an opaque declaration. -/
def declaredName (lp : Str × Str) : Option Str :=
  if isDeclPair lp then some (token1 (fixVersion lp.1)) else none

/-- Specification-side first-occurrence filter, following the spec's words:
a declaration line is kept exactly when no earlier line of the same
program already declared its gate name (`done` is the processed history);
all other lines are emitted, version-substituted, in order. -/
def dedupFirstOccurrence (done : List (Str × Str)) : List (Str × Str) → List Str
  | [] => []
  | lp :: rest =>
    match declaredName lp with
    | none => fixVersion lp.1 :: dedupFirstOccurrence (done ++ [lp]) rest
    | some g =>
      if g ∈ done.filterMap declaredName then dedupFirstOccurrence (done ++ [lp]) rest
      else fixVersion lp.1 :: dedupFirstOccurrence (done ++ [lp]) rest

/-- Specification-side deduplication of one program. -/
def dedupSpec (prog : List Str) : List Str :=
  dedupFirstOccurrence [] (prog.zip (prevList prog))

/-- Whether the line at index `i` is treated as an opaque declaration line
by the pass (the condition evaluated with the pass's own lookback). -/
def treatedAsDecl (prog : List Str) (i : Nat) : Bool :=
  match (prog.zip (prevList prog))[i]? with
  | some lp => isDeclPair lp
  | none => false

/-- A pragma argument line for gate `foo`, first line of its block. -/
def pragLineFoo : Str := "// PRAGMA remote-circuit Foo(n=1)".toList

/-- An opaque declaration line for gate `foo`. -/
def declFoo : Str := "opaque foo q0;".toList

/-- A pragma usage line for gate `foo`, fourth line of its block. -/
def useFoo : Str := "foo".toList

/-- A pragma argument line for gate `bar`. -/
def pragLineBar : Str := "// PRAGMA remote-circuit Bar(n=2)".toList

/-- An opaque declaration line for gate `bar`. -/
def declBar : Str := "opaque bar q0,q1;".toList

/-- A pragma usage line for gate `bar`. -/
def useBar : Str := "bar".toList

/-- A program with two pragma blocks for `foo` and one for `bar`
(the deduplication scenario of the spec's testable properties). -/
def exampleProgram : List Str :=
  [pragLineFoo, declFoo, pragmaTok, useFoo,
   pragLineFoo, declFoo, pragmaTok, useFoo,
   pragLineBar, declBar, pragmaTok, useBar]

/-- The expected assembly of `exampleProgram`: the second `foo`
declaration is dropped, everything else is kept in order. -/
def exampleProgramDeduped : List Str :=
  [pragLineFoo, declFoo, pragmaTok, useFoo,
   pragLineFoo, pragmaTok, useFoo,
   pragLineBar, declBar, pragmaTok, useBar]

/-! ### circuits/remotegate.py: RemoteGate.qasm and the pragma block -/

/-- Accumulator form of the decimal digit characters of `n` (Python's
`str(digit)` in the qubit list), with an explicit fuel;
`natChars` passes fuel `n + 1`, which is always enough since the
recursion divides by ten. -/
def natCharsAux : Nat → Nat → Str
  | 0, _ => []
  | fuel + 1, n =>
    if n < 10 then [Nat.digitChar n]
    else natCharsAux fuel (n / 10) ++ [Nat.digitChar (n % 10)]

/-- Decimal digit characters of `n`, mirroring Python's `str(n)` for the
qubit indices. -/
def natChars (n : Nat) : Str := natCharsAux (n + 1) n

/-- Lower-casing of a name's characters (Python's `str.lower()` on the
ASCII names this layer handles). -/
def lowerL (s : Str) : Str := s.map Char.toLower

/-- The fixed head of the block's first line: the pragma marker followed
by one space, from `'// PRAGMA remote-circuit {}({})'`. -/
def pragmaHead : Str := "// PRAGMA remote-circuit ".toList

/-- One qubit item `q<i>` of the opaque declaration's qubit list
(`"q"+str(digit)`). -/
def qubitItem (i : Nat) : Str := 'q' :: natChars i

/-- The comma-joined qubit list `q0,...,q(n-1)`
(`','.join(["q"+str(digit) for digit in range(self.num_qubits)])`). -/
def qubitList (n : Nat) : Str :=
  List.intercalate [','] ((List.range n).map qubitItem)

/-- The pragma line of the block: marker and space, original-case name,
and the comma-joined bound arguments in parentheses. -/
def remoteLine0 (name : Str) (args : List Str) : Str :=
  pragmaHead ++ name ++ '(' :: (List.intercalate [','] args ++ [')'])

/-- The declaration line of the block: the lower-cased name over the
qubit list, terminated by a semicolon. -/
def remoteLine1 (name : Str) (n : Nat) : Str :=
  "opaque ".toList ++ lowerL name ++ ' ' :: (qubitList n ++ [';'])

/-- The four lines of the pragma block produced by `RemoteGate.qasm`:
pragma line, declaration line, bare marker line, bare lower-cased usage
line. -/
def remoteGateQasmLines (name : Str) (n : Nat) (args : List Str) : List Str :=
  [remoteLine0 name args, remoteLine1 name n, pragmaTok, lowerL name]

/-- Embedding of `RemoteGate.qasm` (remotegate.py): the four-line block
joined by newlines, from the gate's name, qubit count and rendered
`_remote_params`. -/
def remoteGateQasm (name : Str) (n : Nat) (args : List Str) : Str :=
  List.intercalate ['\n'] (remoteGateQasmLines name n args)

/-- Modelled from the spec: the decoder reconstructing
`(name, qubit_count, bound_arguments)` from a pragma block.  The
repository has no decoder (the textual-format parser is an external
collaborator, and only the encoder is in remotegate.py); the spec's
pragma protocol states that decoding the block recovers the triple, so
this decoder parses exactly the documented four-line shape: the name and
the comma-joined arguments from the pragma line, the qubit count from
the length of the declaration line's comma-joined qubit list. -/
def decodePragmaLines : List Str → Option (Str × Nat × List Str)
  | [l0, l1, l2, l3] =>
    if pragmaHead.isPrefixOf l0 && "opaque ".toList.isPrefixOf l1 && l2 == pragmaTok then
      let r0 := l0.drop pragmaHead.length
      let name := r0.takeWhile (fun c => c != '(')
      match r0.dropWhile (fun c => c != '(') with
      | '(' :: restArgs =>
        if restArgs.getLast? == some ')' then
          let inner := restArgs.dropLast
          let args := if inner.isEmpty then [] else inner.splitOn ','
          let qpart := (l1.reverse.takeWhile (fun c => c != ' ')).reverse
          if qpart.getLast? == some ';' then
            let qs := qpart.dropLast
            let qn := if qs.isEmpty then 0 else (qs.splitOn ',').length
            if l3 == lowerL name then some (name, qn, args) else none
          else none
        else none
      | _ => none
    else none
  | _ => none

/-- The decoder on a whole block: split on newlines, then parse the four
lines. -/
def decodeRemoteGate (s : Str) : Option (Str × Nat × List Str) :=
  decodePragmaLines (s.splitOn '\n')

/-! ### circuits/ibmqcircuit.py: IBMQCircuit.compile -/

/-- One argument schema of an `IBMQCircuit` (`IBMQCircuitArguments` in
ibmqcircuit.py); `from_dict` is the identity on this record. -/
structure IBMQCircuitArguments where
  name : String
  description : String
  type : String
  required : Bool
  deriving DecidableEq

/-- A server-materialisable circuit (`IBMQCircuit` in ibmqcircuit.py);
the provider and api handles are omitted. -/
structure IBMQCircuit where
  name : String
  description : String
  arguments : List IBMQCircuitArguments
  deriving DecidableEq

/-- The collaborator's materialisation response
(`circuit_compile(name, output_format, **kwargs)`): declared format and
program text. -/
structure CompileResponse where
  format : String
  circuit : String
  deriving DecidableEq

/-- Errors raised by `IBMQCircuit.compile` (`IBMQCircuitBadArguments` and
`ApiIBMQProtocolError`). -/
inductive CompileError where
  | badArguments (msg : String)
  | protocolError (msg : String)
  deriving DecidableEq

/-- Modelled from the spec: the expected-format constant
`CircuitOutputType.QASM` lives in circuits/apiconstants.py, which is not
among the repository files here; per the spec it is the caller-supplied
output-format identifier, e.g. `"QASM"`. -/
def CircuitOutputTypeQASM : String := "QASM"

/-- Names of the circuit's arguments (`arg_names` in `compile`). -/
def argNames (c : IBMQCircuit) : List String := c.arguments.map (·.name)

/-- The extra argument names of a `compile` call, in call order. -/
def extraArgs (c : IBMQCircuit) (ks : List String) : List String :=
  ks.filter (fun u => !(decide (u ∈ argNames c)))

/-- The missing required argument names of a `compile` call. -/
def missingArgs (c : IBMQCircuit) (ks : List String) : List String :=
  (c.arguments.filter (fun a => a.required && !(decide (a.name ∈ ks)))).map (·.name)

/-- Embedding of `IBMQCircuit.compile` (ibmqcircuit.py).

`kwargs` is the list of keyword-argument names in call order.
`typeCheck` is the outcome of the eval-based argument type verification
(dynamic `eval`/`isinstance` behaviour, an external effect): `some msg`
models a raised type-mismatch `IBMQCircuitBadArguments`, `none` a pass.
`response` is the collaborator's materialisation response; on a format
mismatch `compile` raises `ApiIBMQProtocolError` naming the unexpected
format, otherwise it hands the program text to the external parser
`QuantumCircuit.from_qasm_str`, modelled as returning the text. -/
def compile (c : IBMQCircuit) (typeCheck : Option String)
    (response : CompileResponse) (kwargs : List String) : Except CompileError String :=
  let extra := extraArgs c kwargs
  if extra ≠ [] then
    .error (.badArguments (String.intercalate "," extra ++
      " are not valid arguments for " ++ c.name))
  else
    let missing := missingArgs c kwargs
    if missing ≠ [] then
      .error (.badArguments ("Required arguments " ++
        String.intercalate "," missing ++ " are missing."))
    else
      match typeCheck with
      | some msg => .error (.badArguments msg)
      | none =>
        if response.format ≠ CircuitOutputTypeQASM then
          .error (.protocolError ("Invalid output format " ++ response.format ++
            " received from the server."))
        else .ok response.circuit

/-- A concrete argument-free circuit used by the C8 witness. -/
def circBell : IBMQCircuit := { name := "Bell", description := "bell", arguments := [] }

/-- A raw record named `QFT` with no arguments, used by concrete witnesses. -/
def rawQFT : RawConfig :=
  { name := "QFT", description := "qft", arguments := [], families := [] }

/-- A raw record named `Bell`, used by concrete witnesses. -/
def rawBell : RawConfig :=
  { name := "Bell", description := "bell", arguments := [], families := [] }

/-- An empty, uninitialized registry (the state right after `__init__`). -/
def freshRegistry : Registry := { instances := [], initialized := false }

/-- A concrete template with one required parameter, shaped like the
`QFT` template of the end-to-end scenario. -/
def cdQFT : CircuitDefinition :=
  { name := "QFT", description := "Quantum Fourier transform",
    parameters := [{ name := "num_qubits", description := "size",
                     type := "int", required := true }],
    families := [] }

end IBMQ

open IBMQ

/-- Claim C1 (counterexample): instantiating the `QFT` template (whose only
parameter `num_qubits` is required) with two invalid extra argument names
and the required argument missing raises a `BadArguments` error whose
message names only the two extras; the missing required name
`num_qubits` does not occur in the message, so not all three offending
names are reported. -/
theorem C1_counterexample :
    instantiate cdQFT ["QFT"] (.ok 3) [("foo", "1"), ("bar", "2")] =
      .error (.badArguments "foo,bar are not valid parameters for QFT")
    ∧ ¬ ("num_qubits".toList <:+: "foo,bar are not valid parameters for QFT".toList) := by
  constructor
  · rfl
  · decide

/-- Claim C1 (amended): extra-argument validation short-circuits before the
missing-required check, and each category is reported as a complete set:
whenever the keyword arguments contain at least one extra name,
`instantiate` raises `BadArguments` naming all extra names (comma-joined,
in call order) and the missing required names are not part of that
failure; when there is no extra name and at least one required parameter
is missing, `instantiate` raises `BadArguments` naming all missing
required names (comma-joined, in schema order). -/
theorem C1_extras_reported_completely (cd : CircuitDefinition) (circLib : List String)
    (refCtor : Except String Nat) (kwargs : List (String × String)) :
    (extraParams cd (kwargs.map Prod.fst) ≠ [] →
      instantiate cd circLib refCtor kwargs =
        .error (.badArguments (String.intercalate ","
          (extraParams cd (kwargs.map Prod.fst)) ++
          " are not valid parameters for " ++ cd.name)))
    ∧ (extraParams cd (kwargs.map Prod.fst) = [] →
        missingParams cd (kwargs.map Prod.fst) ≠ [] →
        instantiate cd circLib refCtor kwargs =
          .error (.badArguments ("Required parameters " ++
            String.intercalate "," (missingParams cd (kwargs.map Prod.fst)) ++
            " are missing."))) := by
  constructor
  · intro hex
    unfold instantiate
    simp [hex]
  · intro hex hmiss
    unfold instantiate
    simp [hex, hmiss]

/-- Witness for C1, exercising both branches at concrete calls on the
`QFT` template: two extra names report exactly the two extras, and a call
with no extras and the required `num_qubits` missing reports exactly the
missing set. -/
theorem C1_witness :
    instantiate cdQFT ["QFT"] (.ok 3) [("foo", "1"), ("bar", "2")] =
      .error (.badArguments (String.intercalate ","
        (extraParams cdQFT ([("foo", "1"), ("bar", "2")].map Prod.fst)) ++
        " are not valid parameters for " ++ cdQFT.name))
    ∧ instantiate cdQFT ["QFT"] (.ok 3) [] =
      .error (.badArguments ("Required parameters " ++
        String.intercalate ","
          (missingParams cdQFT (([] : List (String × String)).map Prod.fst)) ++
        " are missing.")) :=
  ⟨(C1_extras_reported_completely cdQFT ["QFT"] (.ok 3)
      [("foo", "1"), ("bar", "2")]).1 (by decide),
   (C1_extras_reported_completely cdQFT ["QFT"] (.ok 3) []).2 (by decide) (by decide)⟩

/-- Claim C10: when validation passes, `instantiate` requires a local
reference class: if no class name of the local circuit library equals the
template's name case-insensitively, it raises `CircuitReferenceNotFound`
with the documented message; conversely a successful instantiation
implies such a class exists. -/
theorem C10_reference_circuit_required (cd : CircuitDefinition) (circLib : List String)
    (refCtor : Except String Nat) (kwargs : List (String × String))
    (hex : extraParams cd (kwargs.map Prod.fst) = [])
    (hmiss : missingParams cd (kwargs.map Prod.fst) = []) :
    ((∀ n ∈ circLib, lowerChars n ≠ lowerChars cd.name) →
      instantiate cd circLib refCtor kwargs =
        .error (.referenceNotFound ("Unable to find a reference " ++ cd.name ++
          " circuit in circuit library.")))
    ∧ (∀ g : RemoteGateInstr, instantiate cd circLib refCtor kwargs = .ok g →
        ∃ n ∈ circLib, lowerChars n = lowerChars cd.name) := by
  constructor
  · intro hnone
    have hfind : circLib.find? (fun n => lowerChars n == lowerChars cd.name) = none := by
      rw [List.find?_eq_none]
      intro x hx
      simpa using hnone x hx
    unfold instantiate
    simp [hex, hmiss, hfind]
  · intro g hok
    cases hfind : circLib.find? (fun n => lowerChars n == lowerChars cd.name) with
    | none =>
      unfold instantiate at hok
      simp [hex, hmiss, hfind] at hok
    | some n =>
      exact ⟨n, List.mem_of_find?_eq_some hfind, by simpa using List.find?_some hfind⟩

/-- Witness for C10 at a concrete call: the `QFT` template with valid
arguments and a circuit library that has no matching class. -/
theorem C10_witness :
    extraParams cdQFT ([("num_qubits", "3")].map Prod.fst) = []
    ∧ missingParams cdQFT ([("num_qubits", "3")].map Prod.fst) = []
    ∧ (((∀ n ∈ ["GHZ"], lowerChars n ≠ lowerChars cdQFT.name) →
        instantiate cdQFT ["GHZ"] (.ok 3) [("num_qubits", "3")] =
          .error (.referenceNotFound ("Unable to find a reference " ++ cdQFT.name ++
            " circuit in circuit library.")))
      ∧ (∀ g : RemoteGateInstr, instantiate cdQFT ["GHZ"] (.ok 3) [("num_qubits", "3")] = .ok g →
          ∃ n ∈ ["GHZ"], lowerChars n = lowerChars cdQFT.name)) :=
  ⟨by decide, by decide,
   C10_reference_circuit_required cdQFT ["GHZ"] (.ok 3) [("num_qubits", "3")]
     (by decide) (by decide)⟩

/-- Helper: `countP` is strictly monotone between predicates `p ≤ q` when
some list element separates them. -/
theorem countP_lt_countP {α : Type} (l : List α) (p q : α → Bool)
    (himp : ∀ x, p x = true → q x = true) (a : α) (ha : a ∈ l)
    (hqa : q a = true) (hpa : p a = false) :
    l.countP p < l.countP q := by
  induction l with
  | nil => cases ha
  | cons b t ih =>
    rw [List.countP_cons, List.countP_cons]
    rcases List.mem_cons.mp ha with rfl | hat
    · have hle : t.countP p ≤ t.countP q :=
        List.countP_mono_left (fun x _ hx => himp x hx)
      simp [hqa, hpa]
      omega
    · have hlt := ih hat
      by_cases hpb : p b = true
      · simp [hpb, himp b hpb]
        omega
      · rw [Bool.not_eq_true] at hpb
        simp [hpb]
        split <;> omega

/-- Helper: with enough fuel, the underscore-appending loop of
`_to_unique_python_identifier` ends at an identifier that is not a key of
the dict. -/
theorem appendUnderscoresAux_not_mem (d : List (String × CircuitDefinition)) :
    ∀ (fuel : Nat) (s : String),
      d.countP (fun kv => decide (s.length ≤ kv.1.length)) < fuel →
      appendUnderscoresAux d fuel s ∉ d.map Prod.fst := by
  intro fuel
  induction fuel with
  | zero => intro s h; omega
  | succ n ih =>
    intro s hcount
    rw [appendUnderscoresAux]
    split
    · rename_i hmem
      apply ih
      have h1 : ("_" : String).length = 1 := rfl
      have hlt : d.countP (fun kv => decide ((s ++ "_").length ≤ kv.1.length)) <
          d.countP (fun kv => decide (s.length ≤ kv.1.length)) := by
        obtain ⟨kv, hkv, hfst⟩ := List.mem_map.mp hmem
        apply countP_lt_countP d _ _ ?_ kv hkv
        · simp [hfst]
        · simp only [decide_eq_false_iff_not, not_le, String.length_append, h1, hfst]
          omega
        · intro x hx
          simp only [decide_eq_true_eq, String.length_append, h1] at hx ⊢
          omega
      omega
    · rename_i hmem
      exact hmem

/-- Helper: the fresh identifier chosen by `to_unique_python_identifier` is
never an existing key. -/
theorem to_unique_python_identifier_fresh (d : List (String × CircuitDefinition))
    (instance_id : String) :
    to_unique_python_identifier d instance_id ∉ d.map Prod.fst := by
  apply appendUnderscoresAux_not_mem
  have := List.countP_le_length
    (l := d) (p := fun kv => decide ((to_python_identifier instance_id).length ≤ kv.1.length))
  omega

/-- Helper: folding the discovery step over the raw items keeps the
identifier keys distinct and adds exactly one entry per well-formed
record. -/
theorem discover_foldl_spec (items : List (Option RawConfig)) :
    ∀ acc : List (String × CircuitDefinition), (acc.map Prod.fst).Nodup →
      ((items.foldl discoverStep acc).map Prod.fst).Nodup
      ∧ (items.foldl discoverStep acc).length = acc.length + (items.filterMap id).length := by
  induction items with
  | nil =>
    intro acc hacc
    simpa using hacc
  | cons item rest ih =>
    intro acc hacc
    cases item with
    | none =>
      simp only [List.foldl_cons, discoverStep]
      have h := ih acc hacc
      simpa [List.filterMap_cons] using h
    | some raw =>
      simp only [List.foldl_cons, discoverStep]
      set cid := to_unique_python_identifier acc raw.name with hcid
      have hfresh : cid ∉ acc.map Prod.fst := to_unique_python_identifier_fresh acc raw.name
      have hins : dictInsert acc cid (toCircuitDefinition raw)
          = acc ++ [(cid, toCircuitDefinition raw)] := by
        simp [dictInsert, hfresh]
      rw [hins]
      have hacc2 : ((acc ++ [(cid, toCircuitDefinition raw)]).map Prod.fst).Nodup := by
        rw [List.map_append, List.nodup_append]
        refine ⟨hacc, by simp, ?_⟩
        intro a ha hb
        simp only [List.map_cons, List.map_nil, List.mem_singleton] at hb
        subst hb
        exact hfresh ha
      have h := ih _ hacc2
      refine ⟨h.1, ?_⟩
      rw [h.2]
      simp [List.filterMap_cons]
      omega

/-- Claim C4 (amended): on a listing that succeeds, two `instances()` calls
without an intervening `refresh()` perform exactly one underlying listing
call when the registry starts uninitialized and zero when it is already
initialized; the second call performs none, leaves the registry unchanged
and returns the same collection content. -/
theorem C4_discovery_idempotent (items : List (Option RawConfig)) (r : Registry) :
    (instancesOp (.ok items) r).2.2 = (if r.initialized then 0 else 1)
    ∧ (instancesOp (.ok items) ((instancesOp (.ok items) r).2.1)).2.2 = 0
    ∧ (instancesOp (.ok items) ((instancesOp (.ok items) r).2.1)).1 =
        (instancesOp (.ok items) r).1
    ∧ (instancesOp (.ok items) ((instancesOp (.ok items) r).2.1)).2.1 =
        (instancesOp (.ok items) r).2.1 := by
  by_cases h : r.initialized
  · simp [instancesOp, discover_instances, h]
  · simp [instancesOp, discover_instances, h]

/-- Claim C4 (counterexample): on a fresh registry whose listing call fails
with a transport error, each of the two `instances()` calls performs its
own underlying listing call (two in total), because the failed discovery
leaves the registry uninitialized; so "exactly one underlying listing
call" does not hold for every registry. -/
theorem C4_counterexample :
    (instancesOp (.error "connection refused") freshRegistry).2.2 = 1
    ∧ (instancesOp (.error "connection refused")
        ((instancesOp (.error "connection refused") freshRegistry).2.1)).2.2 = 1 := by
  exact ⟨rfl, rfl⟩

/-- Claim C5: a successful discovery on an uninitialized registry yields
pairwise-distinct local identifiers (each cached instance is reachable by
exactly one identifier), stores exactly one entry per well-formed record
(colliding derived identifiers are resolved by appending underscores, and
no collision raises), and initializes the registry. -/
theorem C5_unique_identifiers (items : List (Option RawConfig)) (r : Registry)
    (h : r.initialized = false) :
    ((discover_instances (.ok items) r).1.instances.map Prod.fst).Nodup
    ∧ (discover_instances (.ok items) r).1.instances.length = (items.filterMap id).length
    ∧ (discover_instances (.ok items) r).1.initialized = true := by
  have hspec := discover_foldl_spec items [] (by simp)
  unfold discover_instances
  simp only [h, Bool.false_eq_true, if_false]
  exact ⟨hspec.1, by simpa using hspec.2, by trivial⟩

/-- Witness for C5: three raw records whose names all derive to the same
identifier are cached under three distinct identifiers. -/
theorem C5_witness :
    freshRegistry.initialized = false
    ∧ (((discover_instances (.ok [some rawQFT, some rawQFT, none, some rawQFT])
          freshRegistry).1.instances.map Prod.fst).Nodup
      ∧ (discover_instances (.ok [some rawQFT, some rawQFT, none, some rawQFT])
          freshRegistry).1.instances.length =
          ([some rawQFT, some rawQFT, none, some rawQFT].filterMap id).length
      ∧ (discover_instances (.ok [some rawQFT, some rawQFT, none, some rawQFT])
          freshRegistry).1.initialized = true) :=
  ⟨rfl, C5_unique_identifiers [some rawQFT, some rawQFT, none, some rawQFT] freshRegistry rfl⟩

/-- Claim C6: a transport error during discovery is absorbed (the embedding
returns normally instead of raising), the registry stays uninitialized
with an empty cache, the listing call was performed once, and any
subsequent read triggers discovery (performs a listing call) again. -/
theorem C6_transport_failure_degrades (e : TransportError) (r : Registry)
    (h : r.initialized = false) :
    (discover_instances (.error e) r).1.initialized = false
    ∧ (discover_instances (.error e) r).1.instances = []
    ∧ (discover_instances (.error e) r).2 = 1
    ∧ ∀ listing2, (discover_instances listing2 (discover_instances (.error e) r).1).2 = 1 := by
  unfold discover_instances
  simp only [h, Bool.false_eq_true, if_false]
  refine ⟨by trivial, by trivial, by trivial, ?_⟩
  intro listing2
  cases listing2 <;> rfl

/-- Witness for C6 at a concrete failing listing on a fresh registry. -/
theorem C6_witness :
    freshRegistry.initialized = false
    ∧ ((discover_instances (.error "connection refused") freshRegistry).1.initialized = false
      ∧ (discover_instances (.error "connection refused") freshRegistry).1.instances = []
      ∧ (discover_instances (.error "connection refused") freshRegistry).2 = 1
      ∧ ∀ listing2, (discover_instances listing2
          (discover_instances (.error "connection refused") freshRegistry).1).2 = 1) :=
  ⟨rfl, C6_transport_failure_degrades "connection refused" freshRegistry rfl⟩

/-- Claim C7: on an initialized registry with no cached instance of the
requested domain name, `get_instance` raises `IBMQCircuitNotFound`; on an
uninitialized registry it performs the raw single-name fetch instead, and
a transport failure of that fetch is surfaced unwrapped (never as
`IBMQCircuitNotFound`). -/
theorem C7_lookup_error_kinds (r : Registry) (name : String)
    (fetch : Except TransportError RawConfig) (e : TransportError) :
    (r.initialized = true → (∀ c ∈ r.instances.map Prod.snd, c.name ≠ name) →
      get_instance fetch r name =
        .error (.notFound ("Circuit " ++ name ++ " is not available with this provider.")))
    ∧ (r.initialized = false →
        get_instance (.error e) r name = .error (.transport e)) := by
  constructor
  · intro hinit hnone
    have hfind : (r.instances.map Prod.snd).find? (fun c => c.name == name) = none := by
      rw [List.find?_eq_none]
      intro c hc
      simpa using hnone c hc
    unfold get_instance
    simp [hinit, hfind]
  · intro hinit
    unfold get_instance
    simp [hinit]

/-- Helper: a line starting with the opaque keyword does not start with the
version header, so the version substitution leaves it unchanged. -/
theorem fixVersion_opaque_line {l : Str} (h : opaqueTok.isPrefixOf l = true) :
    fixVersion l = l := by
  unfold fixVersion
  rw [if_neg]
  intro h2
  rw [List.isPrefixOf_iff_prefix] at h h2
  obtain ⟨t1, h1⟩ := h
  obtain ⟨t2, h2'⟩ := h2
  have ho : opaqueTok = 'o' :: "paque".toList := by decide
  have hO : openqasm20Tok = 'O' :: "PENQASM 2.0".toList := by decide
  rw [ho] at h1
  rw [hO] at h2'
  rw [← h2'] at h1
  rw [List.cons_append, List.cons_append] at h1
  injection h1 with hc _
  exact absurd hc (by decide)

/-- Helper: the one-pass implementation with a running name list computes
the specification-side first-occurrence filter, for any processed history
whose declared names match the running list. -/
theorem dedupLines_eq_firstOcc :
    ∀ (pairs : List (Str × Str)) (seen : List Str) (done : List (Str × Str)),
      (∀ g : Str, g ∈ seen ↔ g ∈ done.filterMap declaredName) →
      dedupLines seen pairs = dedupFirstOccurrence done pairs := by
  intro pairs
  induction pairs with
  | nil => intro seen done hinv; rfl
  | cons lp rest ih =>
    intro seen done hinv
    by_cases hdecl : isDeclPair lp = true
    · have hname : declaredName lp = some (token1 (fixVersion lp.1)) := by
        simp [declaredName, hdecl]
      rw [dedupLines, dedupFirstOccurrence, hname, if_pos hdecl]
      dsimp only
      have hfm : (done ++ [lp]).filterMap declaredName =
          done.filterMap declaredName ++ [token1 (fixVersion lp.1)] := by
        rw [List.filterMap_append]
        simp [hname]
      by_cases hmem : token1 (fixVersion lp.1) ∈ seen
      · rw [if_pos hmem, if_pos ((hinv _).mp hmem)]
        apply ih
        intro g
        rw [hfm, List.mem_append, List.mem_singleton]
        constructor
        · intro hg
          exact Or.inl ((hinv g).mp hg)
        · rintro (hg | rfl)
          · exact (hinv g).mpr hg
          · exact hmem
      · rw [if_neg hmem, if_neg (fun hc => hmem ((hinv _).mpr hc))]
        congr 1
        apply ih
        intro g
        rw [hfm, List.mem_append, List.mem_singleton, List.mem_cons]
        constructor
        · rintro (rfl | hg)
          · exact Or.inr rfl
          · exact Or.inl ((hinv g).mp hg)
        · rintro (hg | rfl)
          · exact Or.inr ((hinv g).mpr hg)
          · exact Or.inl rfl
    · have hname : declaredName lp = none := by
        simp [declaredName, hdecl]
      rw [dedupLines, dedupFirstOccurrence, hname, if_neg hdecl]
      dsimp only
      congr 1
      apply ih
      intro g
      rw [List.filterMap_append]
      simp [hname, hinv g]

/-- Claim C3 (amended): the submission assembler deduplicates each program
independently (the running set of declared names is scoped to the current
program); on each program it equals the first-occurrence filter, which
keeps the first declaration of each distinct opaque gate name, drops
later duplicates, and emits every other line in original order changed
only by the version-marker substitution (`OPENQASM 2.0...` header lines
are rewritten to `OPENQASM 2.5;`); on the spec's two-`foo`-one-`bar`
scenario exactly the duplicate `foo` declaration is dropped. -/
theorem C3_dedup_first_occurrence (progs : List (List Str)) (prog : List Str) :
    assembleQasm progs = progs.map dedupProgram
    ∧ dedupProgram prog = dedupSpec prog
    ∧ dedupProgram exampleProgram = exampleProgramDeduped := by
  refine ⟨?_, ?_, by decide⟩
  · induction progs with
    | nil => rfl
    | cons p ps ih => simp [assembleQasm, ih]
  · exact dedupLines_eq_firstOcc _ [] [] (by simp)

/-- Claim C3 (counterexample): a version-header line is not emitted
unchanged by the pass, so "every other line is emitted unchanged" fails:
the line `OPENQASM 2.0;` (not an opaque declaration) is rewritten to
`OPENQASM 2.5;`. -/
theorem C3_counterexample :
    dedupProgram [openqasm20Line] = [openqasm25Line]
    ∧ openqasm20Line ≠ openqasm25Line := by decide

/-- Claim C9: in the deduplication pass the lookback for the first line is
Python's `init_qasm[-1]`, the last line of the same program: a first line
starting with the opaque keyword is treated as a declaration iff the
final line starts with the pragma marker.  Concretely, in a program
ending with a pragma-marker line the first line's gate name enters the
running set (so a later duplicate is dropped), while in the same program
without that final line it does not (the later declaration is kept). -/
theorem C9_wraparound_lookback (l0 llast : Str) (mid : List Str)
    (h0 : opaqueTok.isPrefixOf l0 = true) :
    (treatedAsDecl (l0 :: (mid ++ [llast])) 0 = true ↔ pragmaTok.isPrefixOf llast = true)
    ∧ dedupProgram [declFoo, pragmaTok, declFoo] = [declFoo, pragmaTok, declFoo]
    ∧ dedupProgram [declFoo, pragmaTok, declFoo, pragmaTok] = [declFoo, pragmaTok, pragmaTok] := by
  refine ⟨?_, by decide, by decide⟩
  have hlast : (l0 :: (mid ++ [llast])).getLastD [] = llast := by
    have he : l0 :: (mid ++ [llast]) = (l0 :: mid) ++ [llast] := by simp
    rw [he, List.getLastD_concat]
  unfold treatedAsDecl prevList
  simp only [hlast, List.zip_cons_cons, List.getElem?_cons_zero, Option.some.injEq]
  rw [isDeclPair]
  simp only [fixVersion_opaque_line h0, h0, Bool.true_and]

/-- Witness for C9: the wraparound iff at a concrete program whose first
line is an opaque declaration and whose last line is the pragma marker. -/
theorem C9_witness :
    opaqueTok.isPrefixOf declFoo = true
    ∧ ((treatedAsDecl (declFoo :: ([] ++ [pragmaTok])) 0 = true
          ↔ pragmaTok.isPrefixOf pragmaTok = true)
      ∧ dedupProgram [declFoo, pragmaTok, declFoo] = [declFoo, pragmaTok, declFoo]
      ∧ dedupProgram [declFoo, pragmaTok, declFoo, pragmaTok] = [declFoo, pragmaTok, pragmaTok]) :=
  ⟨by decide, C9_wraparound_lookback declFoo pragmaTok [] (by decide)⟩

/-- Claim C8: when argument validation and the type check pass, `compile`
raises `ApiIBMQProtocolError` naming the unexpected format whenever the
response's declared format differs from the expected format constant, and
raises no error at that step (returning the materialised program) when
the formats are equal. -/
theorem C8_format_mismatch_protocol_error (c : IBMQCircuit)
    (response : CompileResponse) (kwargs : List String)
    (hex : extraArgs c kwargs = []) (hmiss : missingArgs c kwargs = []) :
    (response.format ≠ CircuitOutputTypeQASM →
      compile c none response kwargs =
        .error (.protocolError ("Invalid output format " ++ response.format ++
          " received from the server.")))
    ∧ (response.format = CircuitOutputTypeQASM →
        compile c none response kwargs = .ok response.circuit) := by
  constructor
  · intro hne
    unfold compile
    simp [hex, hmiss, hne]
  · intro heq
    unfold compile
    simp [hex, hmiss, heq]

/-- Witness for C8: requesting format `QASM` while the server answers
`QASM3` on an argument-free circuit. -/
theorem C8_witness :
    extraArgs circBell [] = []
    ∧ missingArgs circBell [] = []
    ∧ ((CompileResponse.mk "QASM3" "x").format ≠ CircuitOutputTypeQASM →
        compile circBell none (CompileResponse.mk "QASM3" "x") [] =
          .error (.protocolError ("Invalid output format " ++
            (CompileResponse.mk "QASM3" "x").format ++ " received from the server.")))
    ∧ ((CompileResponse.mk "QASM3" "x").format = CircuitOutputTypeQASM →
        compile circBell none (CompileResponse.mk "QASM3" "x") [] =
          .ok (CompileResponse.mk "QASM3" "x").circuit) :=
  ⟨by decide, by decide,
   (C8_format_mismatch_protocol_error circBell (CompileResponse.mk "QASM3" "x") []
     (by decide) (by decide)).1,
   (C8_format_mismatch_protocol_error circBell (CompileResponse.mk "QASM3" "x") []
     (by decide) (by decide)).2⟩

/-- Helper: `Char.ofNat` of a valid scalar value has that value. -/
theorem charOfNat_toNat (n : Nat) (h : Nat.isValidChar n) : (Char.ofNat n).toNat = n := by
  simp [Char.ofNat, h, Char.ofNatAux, Char.toNat, UInt32.toNat, BitVec.toNat_ofNatLt]

/-- Helper: lower-casing only moves uppercase letters, so a character whose
code is below 65 is its own unique preimage. -/
theorem toLower_eq_of_lt {c d : Char} (hd : d.toNat < 65) (h : c.toLower = d) : c = d := by
  simp only [Char.toLower] at h
  split at h
  · rename_i hc
    have h2 := congrArg Char.toNat h
    have hv : Nat.isValidChar (c.toNat + 32) := by
      left
      omega
    rw [charOfNat_toNat _ hv] at h2
    omega
  · exact h

/-- Helper: every character produced by the digit printer is a digit. -/
theorem natCharsAux_digits : ∀ (fuel n : Nat), ∀ c ∈ natCharsAux fuel n, c.isDigit = true := by
  intro fuel
  have hdig : ∀ m, m < 10 → (Nat.digitChar m).isDigit = true := by decide
  induction fuel with
  | zero => intro n c hc; cases hc
  | succ k ih =>
    intro n c hc
    rw [natCharsAux] at hc
    split at hc
    · rename_i hn
      rcases List.mem_singleton.mp hc with rfl
      exact hdig n hn
    · rcases List.mem_append.mp hc with hcl | hcr
      · exact ih _ c hcl
      · rcases List.mem_singleton.mp hcr with rfl
        exact hdig _ (Nat.mod_lt _ (by omega))

/-- Helper: every character of `natChars n` is a digit. -/
theorem natChars_digits (n : Nat) : ∀ c ∈ natChars n, c.isDigit = true :=
  natCharsAux_digits (n + 1) n

/-- Helper: a character of a comma-joined list is the separator or a
character of one of the joined lists. -/
theorem mem_intercalate {α : Type} (sep c : α) :
    ∀ (ls : List (List α)), c ∈ List.intercalate [sep] ls → c = sep ∨ ∃ l ∈ ls, c ∈ l := by
  intro ls
  induction ls with
  | nil => intro h; simp [List.intercalate] at h
  | cons hd tl ih =>
    cases tl with
    | nil =>
      intro h
      simp only [List.intercalate, List.intersperse_singleton, List.flatten] at h
      rw [List.append_nil] at h
      exact Or.inr ⟨hd, by simp, h⟩
    | cons hd2 tl2 =>
      intro h
      simp only [List.intercalate, List.intersperse_cons_cons, List.flatten] at h
      rcases List.mem_append.mp h with h1 | h2
      · exact Or.inr ⟨hd, by simp, h1⟩
      · rcases List.mem_append.mp h2 with h3 | h4
        · exact Or.inl (List.mem_singleton.mp h3)
        · rcases ih h4 with h5 | ⟨l, hl, hcl⟩
          · exact Or.inl h5
          · exact Or.inr ⟨l, by simp [hl], hcl⟩

/-- Helper: `takeWhile` over a satisfying block followed by a failing
element returns the block. -/
theorem takeWhile_append_cons {α : Type} (p : α → Bool) (xs : List α) (y : α) (ys : List α)
    (hx : ∀ x ∈ xs, p x = true) (hy : p y = false) :
    (xs ++ y :: ys).takeWhile p = xs := by
  induction xs with
  | nil => simp [hy]
  | cons a t ih =>
    rw [List.cons_append, List.takeWhile_cons, hx a (List.mem_cons_self a t)]
    simp only [if_true]
    rw [ih (fun x hxm => hx x (List.mem_cons_of_mem a hxm))]

/-- Helper: `dropWhile` over a satisfying block followed by a failing
element returns the failing element and the tail. -/
theorem dropWhile_append_cons {α : Type} (p : α → Bool) (xs : List α) (y : α) (ys : List α)
    (hx : ∀ x ∈ xs, p x = true) (hy : p y = false) :
    (xs ++ y :: ys).dropWhile p = y :: ys := by
  induction xs with
  | nil => simp [hy]
  | cons a t ih =>
    rw [List.cons_append, List.dropWhile_cons, hx a (List.mem_cons_self a t)]
    simp only [if_true]
    exact ih (fun x hxm => hx x (List.mem_cons_of_mem a hxm))

/-- Helper: a list is a prefix of itself extended by any tail. -/
theorem isPrefixOf_append {α : Type} [DecidableEq α] (l t : List α) :
    l.isPrefixOf (l ++ t) = true := by
  rw [List.isPrefixOf_iff_prefix]
  exact ⟨t, rfl⟩

/-- Claim C2 (counterexample): the encoder is not injective — an argument
list containing a comma produces the same block as the split argument
list — so no decoder recovers every triple; in particular the
spec-modelled decoder returns the split list, not the original triple. -/
theorem C2_counterexample :
    remoteGateQasm "N".toList 1 ["a,b".toList]
      = remoteGateQasm "N".toList 1 ["a".toList, "b".toList]
    ∧ (["a,b".toList] : List Str) ≠ ["a".toList, "b".toList]
    ∧ decodeRemoteGate (remoteGateQasm "N".toList 1 ["a,b".toList])
        ≠ some ("N".toList, 1, ["a,b".toList]) := by
  refine ⟨by decide, by decide, by decide⟩

/-- Helper: a qubit item consists of the letter `q` and digits. -/
theorem qubitItem_chars (i : Nat) : ∀ c ∈ qubitItem i, c = 'q' ∨ c.isDigit = true := by
  intro c hc
  rcases List.mem_cons.mp hc with rfl | hmem
  · exact Or.inl rfl
  · exact Or.inr (natChars_digits i c hmem)

/-- Helper: the qubit list consists of commas, the letter `q` and digits. -/
theorem qubitList_chars (n : Nat) : ∀ c ∈ qubitList n, c = ',' ∨ c = 'q' ∨ c.isDigit = true := by
  intro c hc
  rcases mem_intercalate ',' c _ hc with rfl | ⟨l, hl, hcl⟩
  · exact Or.inl rfl
  · obtain ⟨i, _, rfl⟩ := List.mem_map.mp hl
    rcases qubitItem_chars i c hcl with h | h
    · exact Or.inr (Or.inl h)
    · exact Or.inr (Or.inr h)

/-- Helper: lower-casing a newline-free name stays newline-free. -/
theorem lowerL_newline_free {name : Str} (h : '\n' ∉ name) : '\n' ∉ lowerL name := by
  intro hc
  obtain ⟨c, hcmem, hceq⟩ := List.mem_map.mp hc
  have := toLower_eq_of_lt (c := c) (d := '\n') (by decide) hceq
  subst this
  exact h hcmem

/-- Helper: none of the four block lines contains a newline when the name
and the bound arguments are newline-free. -/
theorem remoteGateQasmLines_newline_free {name : Str} {n : Nat} {args : List Str}
    (hnn : '\n' ∉ name) (ha : ∀ a ∈ args, '\n' ∉ a) :
    ∀ l ∈ remoteGateQasmLines name n args, '\n' ∉ l := by
  intro l hl
  have hdigit : ∀ c : Char, c.isDigit = true → c ≠ '\n' := by
    intro c h hc
    subst hc
    exact absurd h (by decide)
  rcases List.mem_cons.mp hl with rfl | hl
  · intro hc
    rcases List.mem_append.mp hc with hc1 | hc2
    · rcases List.mem_append.mp hc1 with hc3 | hc4
      · exact absurd hc3 (by decide)
      · exact hnn hc4
    · rcases List.mem_cons.mp hc2 with hpar | hc5
      · exact absurd hpar (by decide)
      · rcases List.mem_append.mp hc5 with hc6 | hc7
        · rcases mem_intercalate ',' '\n' args hc6 with hcomma | ⟨a, hamem, hain⟩
          · exact absurd hcomma (by decide)
          · exact ha a hamem hain
        · exact absurd (List.mem_singleton.mp hc7) (by decide)
  rcases List.mem_cons.mp hl with rfl | hl
  · intro hc
    rcases List.mem_append.mp hc with hc1 | hc2
    · rcases List.mem_append.mp hc1 with hc3 | hc4
      · exact absurd hc3 (by decide)
      · exact lowerL_newline_free hnn hc4
    · rcases List.mem_cons.mp hc2 with hsp | hc5
      · exact absurd hsp (by decide)
      · rcases List.mem_append.mp hc5 with hc6 | hc7
        · rcases qubitList_chars n '\n' hc6 with h | h | h
          · exact absurd h (by decide)
          · exact absurd h (by decide)
          · exact hdigit '\n' h rfl
        · exact absurd (List.mem_singleton.mp hc7) (by decide)
  rcases List.mem_cons.mp hl with rfl | hl
  · decide
  rcases List.mem_cons.mp hl with rfl | hl
  · exact lowerL_newline_free hnn
  · cases hl

/-- Helper: splitting the encoded block on newlines recovers the four
lines. -/
theorem remoteGateQasm_splitOn {name : Str} {n : Nat} {args : List Str}
    (hnn : '\n' ∉ name) (ha : ∀ a ∈ args, '\n' ∉ a) :
    (remoteGateQasm name n args).splitOn '\n' = remoteGateQasmLines name n args := by
  apply List.splitOn_intercalate
  · exact remoteGateQasmLines_newline_free hnn ha
  · simp [remoteGateQasmLines]

/-- Helper: the decoder's argument branch recovers the argument list from
its comma-join, for nonempty comma-free arguments. -/
theorem decode_args_eq (args : List Str)
    (ha : ∀ a ∈ args, a ≠ [] ∧ ',' ∉ a ∧ '\n' ∉ a) :
    (if (List.intercalate [','] args).isEmpty then []
     else (List.intercalate [','] args).splitOn ',') = args := by
  cases args with
  | nil => rfl
  | cons a t =>
    have hsp : (List.intercalate [','] (a :: t)).splitOn ',' = a :: t :=
      List.splitOn_intercalate (a :: t) ',' (fun l hl => (ha l hl).2.1) (by simp)
    have hne : List.intercalate [','] (a :: t) ≠ [] := by
      intro hemp
      rw [hemp, List.splitOn_nil] at hsp
      have hmem : ([] : Str) ∈ a :: t := by
        rw [← hsp]
        simp
      exact (ha [] hmem).1 rfl
    rw [if_neg (by simpa [List.isEmpty_iff] using hne)]
    exact hsp

/-- Helper: the decoder's qubit branch recovers the qubit count from the
comma-joined qubit list. -/
theorem decode_qubits_eq (n : Nat) :
    (if (qubitList n).isEmpty then 0 else ((qubitList n).splitOn ',').length) = n := by
  cases n with
  | zero => rfl
  | succ m =>
    have hfree : ∀ l ∈ (List.range (m + 1)).map qubitItem, ',' ∉ l := by
      intro l hl hcm
      obtain ⟨i, _, rfl⟩ := List.mem_map.mp hl
      rcases qubitItem_chars i ',' hcm with h | h
      · exact absurd h (by decide)
      · exact absurd h (by decide)
    have hsp : (qubitList (m + 1)).splitOn ',' = (List.range (m + 1)).map qubitItem :=
      List.splitOn_intercalate ((List.range (m + 1)).map qubitItem) ',' hfree (by simp)
    have hne : qubitList (m + 1) ≠ [] := by
      intro hemp
      rw [hemp, List.splitOn_nil] at hsp
      have hmem : ([] : Str) ∈ (List.range (m + 1)).map qubitItem := by
        rw [← hsp]
        simp
      obtain ⟨i, _, hqi⟩ := List.mem_map.mp hmem
      exact List.cons_ne_nil _ _ hqi
    rw [if_neg (by simpa [List.isEmpty_iff] using hne)]
    rw [hsp]
    simp

/-- Claim C2 (amended): the encoder is a pure total function producing
exactly the four-line block (pragma line with original-case name and
comma-joined arguments, opaque declaration of the lower-cased name over
`q0..q(n-1)`, bare marker line, bare lower-cased name line), and on
triples whose components avoid the block's delimiter characters (no `(`
or newline in the name, arguments nonempty without comma or newline)
decoding the block recovers exactly the same triple.  Without those
restrictions no decoder exists, since the encoder is not injective (see
the counterexample). -/
theorem C2_pragma_roundtrip (name : Str) (n : Nat) (args : List Str)
    (hnp : '(' ∉ name) (hnn : '\n' ∉ name)
    (ha : ∀ a ∈ args, a ≠ [] ∧ ',' ∉ a ∧ '\n' ∉ a) :
    remoteGateQasm name n args =
      List.intercalate ['\n']
        [remoteLine0 name args, remoteLine1 name n, pragmaTok, lowerL name]
    ∧ decodeRemoteGate (remoteGateQasm name n args) = some (name, n, args) := by
  refine ⟨rfl, ?_⟩
  have hxname : ∀ c ∈ name, (c != '(') = true := by
    intro c hcm
    rw [bne_iff_ne]
    intro hce
    exact hnp (hce ▸ hcm)
  have hsplit := remoteGateQasm_splitOn (n := n) hnn (fun a hamem => (ha a hamem).2.2)
  have hc1 : pragmaHead.isPrefixOf (remoteLine0 name args) = true := by
    unfold remoteLine0
    rw [List.append_assoc]
    exact isPrefixOf_append _ _
  have hc2 : ("opaque ".toList).isPrefixOf (remoteLine1 name n) = true := by
    unfold remoteLine1
    rw [List.append_assoc]
    exact isPrefixOf_append _ _
  have hr0 : (remoteLine0 name args).drop pragmaHead.length
      = name ++ '(' :: (List.intercalate [','] args ++ [')']) := by
    unfold remoteLine0
    rw [List.append_assoc, List.drop_left]
  have htakname : (name ++ '(' :: (List.intercalate [','] args ++ [')'])).takeWhile
      (fun c => c != '(') = name :=
    takeWhile_append_cons _ name '(' _ hxname (by simp)
  have hdropw : (name ++ '(' :: (List.intercalate [','] args ++ [')'])).dropWhile
      (fun c => c != '(') = '(' :: (List.intercalate [','] args ++ [')']) :=
    dropWhile_append_cons _ name '(' _ hxname (by simp)
  have hrev : (remoteLine1 name n).reverse
      = (';' :: (qubitList n).reverse) ++ ' ' :: ("opaque ".toList ++ lowerL name).reverse := by
    unfold remoteLine1
    simp [List.reverse_append]
  have htakesp : (remoteLine1 name n).reverse.takeWhile (fun c => c != ' ')
      = ';' :: (qubitList n).reverse := by
    rw [hrev]
    apply takeWhile_append_cons
    · intro x hx
      rcases List.mem_cons.mp hx with rfl | hx2
      · decide
      · rw [List.mem_reverse] at hx2
        rw [bne_iff_ne]
        rintro rfl
        rcases qubitList_chars n ' ' hx2 with h | h | h
        · exact absurd h (by decide)
        · exact absurd h (by decide)
        · exact absurd h (by decide)
    · simp
  have hqpart : ((remoteLine1 name n).reverse.takeWhile (fun c => c != ' ')).reverse
      = qubitList n ++ [';'] := by
    rw [htakesp]
    simp
  unfold decodeRemoteGate
  rw [hsplit]
  simp only [remoteGateQasmLines, decodePragmaLines]
  simp only [hc1, hc2, beq_self_eq_true, Bool.and_self, Bool.and_true, Bool.true_and, if_true]
  simp only [hr0, htakname, hdropw, hqpart]
  simp only [List.getLast?_concat, beq_self_eq_true, if_true, List.dropLast_concat]
  rw [decode_args_eq args ha, decode_qubits_eq n]

/-- Witness for C2: the round trip at the spec's concrete example,
`("QFT", 3, ["num_qubits=3"])`. -/
theorem C2_witness :
    ('(' ∉ "QFT".toList ∧ '\n' ∉ "QFT".toList
      ∧ ∀ a ∈ ["num_qubits=3".toList], a ≠ [] ∧ ',' ∉ a ∧ '\n' ∉ a)
    ∧ (remoteGateQasm "QFT".toList 3 ["num_qubits=3".toList] =
        List.intercalate ['\n']
          [remoteLine0 "QFT".toList ["num_qubits=3".toList],
           remoteLine1 "QFT".toList 3, pragmaTok, lowerL "QFT".toList]
      ∧ decodeRemoteGate (remoteGateQasm "QFT".toList 3 ["num_qubits=3".toList]) =
          some ("QFT".toList, 3, ["num_qubits=3".toList])) :=
  ⟨⟨by decide, by decide, by decide⟩,
   C2_pragma_roundtrip "QFT".toList 3 ["num_qubits=3".toList] (by decide) (by decide) (by decide)⟩
